import Mathlib

/-!
Verification of the drift-monitoring and performance-tracking core of the
qconsf-mlops notebooks (Part1.ipynb and the Part2 monitoring notebook).

The notebooks are workshop starter code: the confidence-interval cells and the
drift loops are present, while several algorithm bodies are marked
`[TO BE IMPLEMENTED]`.  Definitions below are translated from the notebook code
where that code exists (the `bootstrap_distribution` stub, the percentile
indexing of the confidence-interval cells, the per-day drift loop); where a
body is missing from the notebooks, the definition is modelled from the spec
and its doc comment says so.
-/

namespace QconsfMlops

/-! ## Definitions -/

/-- The label universe `LABEL_SET` from the notebooks. -/
def LABEL_SET : List String :=
  ["Business", "Sci/Tech", "Software and Developement", "Entertainment",
   "Sports", "Health", "Toons", "Music Feeds"]

/-- Accuracy of a list of paired (true label, predicted label) samples:
the fraction of pairs whose two components agree, as computed by
`accuracy_score(Y_true, Y_pred)` on the zipped label lists.  On the empty
list the quotient `0 / 0` is `0`. -/
def accuracy (pairs : List (String × String)) : ℚ :=
  (pairs.countP (fun x => x.1 == x.2) : ℚ) / (pairs.length : ℚ)

/-- The `bootstrap_distribution(Y_true, Y_pred, N)` function exactly as it
stands in Part1.ipynb: its body is the stub `bootstrap_vals = [0]*N`, an
all-zero list of length `N`. -/
def bootstrap_distribution (Ytrue Ypred : List String) (N : ℕ) : List ℚ :=
  List.replicate N 0

/-- Sorting step `bs_vals = sorted(bs_vals)` of the confidence-interval cells. -/
def sortedVals (vals : List ℚ) : List ℚ :=
  vals.mergeSort

/-- The percentile extraction of the confidence-interval cells: the cell reads
`bs_vals[25]` and `bs_vals[975]` at the fixed indices 25 and 975.  A Python
index error is modelled by `none`. -/
def ciBounds (bs : List ℚ) : Option (ℚ × ℚ) :=
  (bs[25]?).bind (fun lo => (bs[975]?).map (fun hi => (lo, hi)))

/-- The whole confidence-interval cell of Part1.ipynb: run
`bootstrap_distribution`, sort the values, read indices 25 and 975. -/
def ciCell (Ytrue Ypred : List String) (N : ℕ) : Option (ℚ × ℚ) :=
  ciBounds (sortedVals (bootstrap_distribution Ytrue Ypred N))

/-- Modelled from the spec: one bootstrap resample of the paired
(true, predicted) index set.  The body of `bootstrap_distribution` is marked
`[TO BE IMPLEMENTED]` in Part1.ipynb.  `ix` is the list of indices drawn
uniformly with replacement; the resample reads the pair at each drawn index
(out-of-range indices, which never occur for well-formed draws, default to a
dummy pair). -/
def resample (pairs : List (String × String)) (ix : List ℕ) : List (String × String) :=
  ix.map (fun j => pairs.getD j ("", ""))

/-- Modelled from the spec: the intended `bootstrap_distribution` body, which
is missing from Part1.ipynb (`[TO BE IMPLEMENTED]`): one accuracy value per
resampling trial, the randomness abstracted as the explicit list `draws` of
per-trial index draws. -/
def bootstrapDistributionSpec (pairs : List (String × String))
    (draws : List (List ℕ)) : List ℚ :=
  draws.map (fun ix => accuracy (resample pairs ix))

/-- Rank of the 2.5th percentile among `N` sorted values (the notebook reads
index 25 for its default `N = 1000`). -/
def lowerIdx (N : ℕ) : ℕ := 25 * N / 1000

/-- Rank of the 97.5th percentile among `N` sorted values (the notebook reads
index 975 for its default `N = 1000`). -/
def upperIdx (N : ℕ) : ℕ := 975 * N / 1000

/-- Modelled from the spec: the full confidence-interval procedure — compute
the bootstrap accuracy distribution, sort it, and read the values at the 2.5th
and 97.5th percentile ranks as the 95% interval bounds. -/
def bootstrapCI (pairs : List (String × String)) (draws : List (List ℕ)) :
    Option (ℚ × ℚ) :=
  let sv := sortedVals (bootstrapDistributionSpec pairs draws)
  (sv[lowerIdx draws.length]?).bind
    (fun lo => (sv[upperIdx draws.length]?).map (fun hi => (lo, hi)))

/-- Modelled from the spec: the union of the category labels observed on
either the reference or the target side.  The chi-square drift cell of the
monitoring notebook is marked `[TO BE IMPLEMENTED]`. -/
def unionCats (refCounts tgtCounts : List (String × ℕ)) : List String :=
  ((refCounts.map Prod.fst) ++ (tgtCounts.map Prod.fst)).dedup

/-- Count of a category in a category-count mapping; a category absent from
the mapping counts zero (it is never skipped). -/
def countOf (m : List (String × ℕ)) (c : String) : ℕ :=
  ((m.lookup c).getD 0)

/-- Sample size of a category-count mapping. -/
def totalOf (m : List (String × ℕ)) : ℕ :=
  (m.map Prod.snd).sum

/-- Modelled from the spec: documented small positive floor used for the
reference proportion of a category never seen in the reference. -/
def floorProp : ℚ := 1 / 1000000

/-- Modelled from the spec: reference proportion of a category, floored when
the category has zero reference count. -/
def refProp (refCounts : List (String × ℕ)) (c : String) : ℚ :=
  if countOf refCounts c = 0 then floorProp
  else (countOf refCounts c : ℚ) / (totalOf refCounts : ℚ)

/-- Modelled from the spec: expected count of a category — the reference
proportion scaled to the target sample size. -/
def expectedCount (refCounts tgtCounts : List (String × ℕ)) (c : String) : ℚ :=
  refProp refCounts c * (totalOf tgtCounts : ℚ)

/-- Modelled from the spec: the chi-square goodness-of-fit statistic of the
target's observed counts against the expected counts, summed over the union
of categories. -/
def chi2stat (refCounts tgtCounts : List (String × ℕ)) : ℚ :=
  ((unionCats refCounts tgtCounts).map (fun c =>
    ((countOf tgtCounts c : ℚ) - expectedCount refCounts tgtCounts c) ^ 2
      / expectedCount refCounts tgtCounts c)).sum

/-- One day's drift output: test statistic, degrees of freedom, p-value,
reference size and target size. -/
structure DriftOut where
  stat : ℚ
  degFree : ℕ
  pValue : ℚ
  refSize : ℕ
  tgtSize : ℕ

/-- Modelled from the spec: the categorical drift detector.  The chi-square
survival function (transcendental, supplied by scipy in the notebook) is
abstracted as the parameter `sf`. -/
def chiSquareDrift (sf : ℚ → ℕ → ℚ) (refCounts tgtCounts : List (String × ℕ)) :
    DriftOut :=
  { stat := chi2stat refCounts tgtCounts
    degFree := (unionCats refCounts tgtCounts).length - 1
    pValue := sf (chi2stat refCounts tgtCounts)
      ((unionCats refCounts tgtCounts).length - 1)
    refSize := totalOf refCounts
    tgtSize := totalOf tgtCounts }

/-- Modelled from the spec: a null/absent category value (and likewise an
empty string) is mapped to the single reserved category value `"UNKNOWN"`
before counting; the drift cell only contains the instruction to handle
missing/null values consistently, the handling code being
`[TO BE IMPLEMENTED]`. -/
def normalizeSource (v : Option String) : String :=
  match v with
  | none => "UNKNOWN"
  | some s => if s = "" then "UNKNOWN" else s

/-- Modelled from the spec: category counts of a list of raw (possibly null)
category values, computed after normalizing every value. -/
def categoryCounts (vals : List (Option String)) : List (String × ℕ) :=
  let ns := vals.map normalizeSource
  ns.dedup.map (fun c => (c, ns.count c))

/-- Error taxonomy of the monitoring core, from the spec. -/
inductive MonitorError where
  | insufficientData
  | emptyInput
  | notFound
deriving DecidableEq

/-- Modelled from the spec: a 75/25 split of a sample into a training
partition and a held-out evaluation partition. -/
def split75 {γ : Type} (l : List γ) : List γ × List γ :=
  (l.take (3 * l.length / 4), l.drop (3 * l.length / 4))

/-- Modelled from the spec: one day of the classifier-based representation
drift detector, whose cell is marked `[TO BE IMPLEMENTED]`.  Reference
vectors are class 0, target vectors class 1; each side is split 75/25 into
train and held-out partitions; if one class is entirely absent from the
held-out partition the detector reports `InsufficientDataError`, otherwise it
returns the p-value of the discriminator test, abstracted as the parameter
`oracle` (fresh per call — the detector holds no state of its own). -/
def embeddingsDriftDay
    (oracle : List (List ℚ) → List (List ℚ) → List (List ℚ) → List (List ℚ) → ℚ)
    (refVecs tgtVecs : List (List ℚ)) : Except MonitorError ℚ :=
  let refSplit := split75 refVecs
  let tgtSplit := split75 tgtVecs
  if refSplit.2 = [] ∨ tgtSplit.2 = [] then
    Except.error MonitorError.insufficientData
  else
    Except.ok (oracle refSplit.1 tgtSplit.1 refSplit.2 tgtSplit.2)

/-- A timestamp: the calendar-date component (encoded as `YYYYMMDD`) and the
sub-day time of day. -/
structure Timestamp where
  day : ℕ
  tod : ℕ
deriving DecidableEq

/-- An inference log record, reduced to the fields the claims need. -/
structure InfRecord where
  id : ℕ
  ts : Timestamp
  predLabel : String
deriving DecidableEq

/-- A ground-truth record of annotations.json: a log id and a true label. -/
structure AnnRecord where
  id : ℕ
  label : String
deriving DecidableEq

/-- Date predicate: a record falls on date `d` when the calendar-date
component of its timestamp equals `d`, whatever its time of day. -/
def onDate (d : ℕ) (r : InfRecord) : Bool :=
  r.ts.day == d

/-- Modelled from the spec: `recordsOnDate(d)` filters the stored sequence by
the calendar date extracted from the timestamp, keeping arrival order, and
returns an empty sequence (never an error) when no record has that date; the
date filter follows the notebook's `logs[logs['date'] == LOG_DATE_START]`. -/
def recordsOnDate (logsL : List InfRecord) (d : ℕ) : List InfRecord :=
  logsL.filter (onDate d)

/-- Modelled from the spec: `annotationFor(id)` — the optional ground-truth
label joined by the `id` field. -/
def annotationFor (annset : List AnnRecord) (i : ℕ) : Option String :=
  (annset.find? (fun a => a.id == i)).map AnnRecord.label

/-- Modelled from the spec: the performance-tracker join — one
(predicted label, true label, date) triple per log record with a matching
ground-truth record; records without a match are excluded, not imputed.  The
daily accuracy cell of the monitoring notebook is `[TO BE IMPLEMENTED]`. -/
def joinedTriples (logsL : List InfRecord) (annset : List AnnRecord) :
    List (String × String × ℕ) :=
  logsL.filterMap (fun r =>
    (annotationFor annset r.id).map (fun t => (r.predLabel, t, r.ts.day)))

/-- The joined triples that fall on one date. -/
def dayTriples (logsL : List InfRecord) (annset : List AnnRecord) (d : ℕ) :
    List (String × String × ℕ) :=
  (joinedTriples logsL annset).filter (fun t => t.2.2 == d)

/-- Modelled from the spec: daily aggregate classification accuracy over the
joined triples of one date; a date with zero joined triples is omitted
(`none`), not reported as zero. -/
def dailyAccuracy (logsL : List InfRecord) (annset : List AnnRecord) (d : ℕ) :
    Option ℚ :=
  if dayTriples logsL annset d = [] then none
  else some (accuracy ((dayTriples logsL annset d).map (fun t => (t.1, t.2.1))))

/-- `LOG_DATE_START = date(2022, 10, 1)`, encoded as `YYYYMMDD`. -/
def logDateStart : ℕ := 20221001

/-- `LOG_DATE_END = date(2022, 10, 14)`, encoded as `YYYYMMDD`.  All fourteen
monitored dates fall in October 2022, so consecutive dates are consecutive
numerals in this encoding. -/
def logDateEnd : ℕ := 20221014

/-- The dates visited by the drift loops of the monitoring notebook, in loop
order: `LOG_DATE_START + d` for `d` in `range(delta.days + 1)`. -/
def monitorDates : List ℕ :=
  (List.range (logDateEnd - logDateStart + 1)).map (fun d => logDateStart + d)

/-- One day's drift computation for one feature: a pure function of the
reference data and that day's slice of the logs alone. -/
def dayResult {α β : Type} (f : α → List InfRecord → β) (refData : α)
    (logsL : List InfRecord) (d : ℕ) : β :=
  f refData (recordsOnDate logsL d)

/-- The per-feature drift series emitted by a drift loop: one (date, result)
pair per monitored date, a fresh per-day computation each time. -/
def driftSeries {α β : Type} (f : α → List InfRecord → β) (refData : α)
    (logsL : List InfRecord) : List (ℕ × β) :=
  monitorDates.map (fun d => (d, dayResult f refData logsL d))

/-! ## Theorems -/

theorem sortedVals_length (vals : List ℚ) : (sortedVals vals).length = vals.length :=
  List.length_mergeSort ..

theorem sortedVals_perm (vals : List ℚ) : (sortedVals vals).Perm vals :=
  List.mergeSort_perm ..

theorem sortedVals_sorted (vals : List ℚ) : (sortedVals vals).Sorted (· ≤ ·) :=
  List.sorted_mergeSort' vals

theorem ciBounds_isSome_iff (bs : List ℚ) : (ciBounds bs).isSome ↔ 976 ≤ bs.length := by
  unfold ciBounds
  by_cases h : 976 ≤ bs.length
  · rw [List.getElem?_eq_getElem (show 25 < bs.length by omega),
      List.getElem?_eq_getElem (show 975 < bs.length by omega)]
    simp [h]
  · have h975 : bs[975]? = none := List.getElem?_eq_none (by omega)
    rcases h25 : bs[25]? with _ | lo <;> simp [h975, h]

theorem sortedVals_replicate_zero (n : ℕ) :
    sortedVals (List.replicate n 0) = List.replicate n 0 := by
  refine List.eq_replicate_iff.mpr ⟨by simp [sortedVals_length], fun b hb => ?_⟩
  exact List.eq_of_mem_replicate ((sortedVals_perm _).mem_iff.mp hb)

/-- C10: the confidence-interval cells index the sorted bootstrap list at the
fixed positions 25 and 975 whatever `N` is; the accesses are in bounds exactly
when the list returned by `bootstrap_distribution` (always of length `N`) has
at least 976 elements, so `N = 1000` succeeds and every `N < 976` fails with an
out-of-bounds access. -/
theorem ciCell_fixed_indices (Ytrue Ypred : List String) (N : ℕ) :
    (bootstrap_distribution Ytrue Ypred N).length = N
    ∧ ((ciCell Ytrue Ypred N).isSome ↔
        976 ≤ (bootstrap_distribution Ytrue Ypred N).length)
    ∧ (976 ≤ N → ∃ b, ciCell Ytrue Ypred N = some b)
    ∧ (N < 976 → ciCell Ytrue Ypred N = none) := by
  have hlen : (bootstrap_distribution Ytrue Ypred N).length = N := by
    simp [bootstrap_distribution]
  have hiff : (ciCell Ytrue Ypred N).isSome ↔
      976 ≤ (bootstrap_distribution Ytrue Ypred N).length := by
    rw [ciCell, ciBounds_isSome_iff, sortedVals_length]
  refine ⟨hlen, hiff, fun h => ?_, fun h => ?_⟩
  · rcases Option.isSome_iff_exists.mp (hiff.mpr (by omega)) with ⟨b, hb⟩
    exact ⟨b, hb⟩
  · have : ¬ (ciCell Ytrue Ypred N).isSome := by
      rw [hiff]; omega
    simpa [Option.isNone_iff_eq_none] using Option.not_isSome_iff_eq_none.mp this

/-- Witness for `ciCell_fixed_indices` at `N = 1000` (the notebook default):
both accesses are in bounds and the cell produces interval bounds. -/
theorem ciCell_fixed_indices_witness :
    976 ≤ 1000 ∧ ∃ b, ciCell [] [] 1000 = some b :=
  ⟨by omega, (ciCell_fixed_indices [] [] 1000).2.2.1 (by omega)⟩

/-- C3, evaluated on the code: invoking the confidence-interval computation of
Part1.ipynb with empty label sequences does not fail; it returns the bounds
`(0, 0)` read out of the all-zero list `[0]*N`, contradicting the spec's
required `EmptyInputError`. -/
theorem ciCell_empty_input_returns_zero_bounds :
    ciCell [] [] 1000 = some (0, 0) := by
  rw [ciCell, bootstrap_distribution, sortedVals_replicate_zero, ciBounds]
  rw [List.getElem?_replicate_of_lt (by omega), List.getElem?_replicate_of_lt (by omega)]
  rfl

theorem lowerIdx_le_upperIdx (N : ℕ) : lowerIdx N ≤ upperIdx N := by
  unfold lowerIdx upperIdx; omega

theorem upperIdx_lt (N : ℕ) (h : 0 < N) : upperIdx N < N := by
  unfold upperIdx; omega

/-- C2: for non-empty paired label lists and any positive number of trials,
the modelled bootstrap procedure computes one accuracy value per resampling
trial, each resample has the size of the original paired set, the values are
sorted (a sorted permutation of the per-trial accuracies), and the reported
bounds are the entries of the sorted list at the 2.5th and 97.5th percentile
ranks, with lower bound ≤ upper bound. -/
theorem bootstrapCI_spec (pairs : List (String × String)) (draws : List (List ℕ))
    (hne : pairs ≠ []) (hdz : 0 < draws.length)
    (hdr : ∀ ix ∈ draws, ix.length = pairs.length) :
    (bootstrapDistributionSpec pairs draws).length = draws.length
    ∧ (∀ ix ∈ draws, (resample pairs ix).length = pairs.length
        ∧ accuracy (resample pairs ix) ∈ bootstrapDistributionSpec pairs draws)
    ∧ (sortedVals (bootstrapDistributionSpec pairs draws)).Sorted (· ≤ ·)
    ∧ (sortedVals (bootstrapDistributionSpec pairs draws)).Perm
        (bootstrapDistributionSpec pairs draws)
    ∧ ∃ lo hi,
        bootstrapCI pairs draws = some (lo, hi)
        ∧ (sortedVals (bootstrapDistributionSpec pairs draws))[lowerIdx draws.length]?
            = some lo
        ∧ (sortedVals (bootstrapDistributionSpec pairs draws))[upperIdx draws.length]?
            = some hi
        ∧ lo ≤ hi := by
  set sv := sortedVals (bootstrapDistributionSpec pairs draws) with hsv
  have hlen : (bootstrapDistributionSpec pairs draws).length = draws.length := by
    simp [bootstrapDistributionSpec]
  have hsvlen : sv.length = draws.length := by
    rw [hsv, sortedVals_length, hlen]
  have hup : upperIdx draws.length < sv.length := by
    rw [hsvlen]; exact upperIdx_lt _ hdz
  have hlow : lowerIdx draws.length < sv.length :=
    lt_of_le_of_lt (lowerIdx_le_upperIdx _) hup
  have hsorted : sv.Sorted (· ≤ ·) := sortedVals_sorted _
  refine ⟨hlen, fun ix hix => ⟨by simp [resample, hdr ix hix], ?_⟩, hsorted,
    sortedVals_perm _, sv.get ⟨lowerIdx draws.length, hlow⟩,
    sv.get ⟨upperIdx draws.length, hup⟩, ?_, ?_, ?_, ?_⟩
  · exact List.mem_map_of_mem _ hix
  · rw [bootstrapCI]
    rw [show sortedVals (bootstrapDistributionSpec pairs draws) = sv from rfl]
    rw [List.getElem?_eq_getElem hlow, List.getElem?_eq_getElem hup]
    simp [List.get_eq_getElem]
  · rw [List.getElem?_eq_getElem hlow, List.get_eq_getElem]
  · rw [List.getElem?_eq_getElem hup, List.get_eq_getElem]
  · exact hsorted.rel_get_of_le (Fin.mk_le_mk.mpr (lowerIdx_le_upperIdx _))

/-- Witness for `bootstrapCI_spec` at a concrete input: two paired samples and
two trials drawing indices `[0,0]` and `[1,1]`. -/
theorem bootstrapCI_spec_witness :
    ([(("a" : String), ("a" : String)), (("a" : String), ("b" : String))] ≠
        ([] : List (String × String)))
    ∧ 0 < ([[0, 0], [1, 1]] : List (List ℕ)).length
    ∧ (∀ ix ∈ ([[0, 0], [1, 1]] : List (List ℕ)), ix.length = 2)
    ∧ ∃ lo hi,
        bootstrapCI [("a", "a"), ("a", "b")] [[0, 0], [1, 1]] = some (lo, hi)
        ∧ lo ≤ hi := by
  refine ⟨by simp, by simp, by decide, ?_⟩
  rcases (bootstrapCI_spec [("a", "a"), ("a", "b")] [[0, 0], [1, 1]]
      (by simp) (by simp) (by decide)).2.2.2.2 with ⟨lo, hi, hci, _, _, hle⟩
  exact ⟨lo, hi, hci, hle⟩

/-- C9: accuracy is idempotent (recomputing on the identical joined set gives
the identical value) and always lies in the closed interval [0,1]. -/
theorem accuracy_idempotent_bounded (pairs : List (String × String)) :
    accuracy pairs = accuracy pairs ∧ 0 ≤ accuracy pairs ∧ accuracy pairs ≤ 1 := by
  refine ⟨rfl, div_nonneg (by positivity) (by positivity), ?_⟩
  unfold accuracy
  rcases Nat.eq_zero_or_pos pairs.length with h | h
  · simp [h]
  · rw [div_le_one (by exact_mod_cast h)]
    exact_mod_cast List.countP_le_length (fun x : String × String => x.1 == x.2)

theorem lookup_eq_none_of_not_mem_keys {c : String} {m : List (String × ℕ)}
    (h : c ∉ m.map Prod.fst) : m.lookup c = none := by
  induction m with
  | nil => rfl
  | cons p t ih =>
    obtain ⟨k, v⟩ := p
    simp only [List.map_cons, List.mem_cons] at h
    push_neg at h
    have hk : (c == k) = false := by simpa using h.1
    simpa [List.lookup, hk] using ih h.2

theorem countOf_eq_zero_of_not_mem_keys {c : String} {m : List (String × ℕ)}
    (h : c ∉ m.map Prod.fst) : countOf m c = 0 := by
  rw [countOf, lookup_eq_none_of_not_mem_keys h]
  rfl

/-- C1 counterexample: with reference counts `{a: 3}` and target counts
`{b: 2}` — the category `b` is present in the target only — the detector's
statistic is not the chi-square formula built from the raw reference
proportions scaled to the target sample size: the detector replaces the zero
reference proportion of `b` by the documented floor, while the raw formula's
term for `b` degenerates (division by a zero expected count). -/
theorem chiSquareDrift_raw_expected_counterexample :
    (chiSquareDrift (fun _ _ => (0 : ℚ)) [("a", 3)] [("b", 2)]).stat ≠
      ((unionCats [("a", 3)] [("b", 2)]).map (fun c =>
        ((countOf [("b", 2)] c : ℚ)
            - (countOf [("a", 3)] c : ℚ) / (totalOf [("a", 3)] : ℚ)
                * (totalOf [("b", 2)] : ℚ)) ^ 2
          / ((countOf [("a", 3)] c : ℚ) / (totalOf [("a", 3)] : ℚ)
                * (totalOf [("b", 2)] : ℚ)))).sum := by
  have hu : unionCats [("a", 3)] [("b", 2)] = ["a", "b"] := by decide
  have ca : countOf [("a", 3)] "a" = 3 := by decide
  have cb : countOf [("a", 3)] "b" = 0 := by decide
  have ta : countOf [("b", 2)] "a" = 0 := by decide
  have tb : countOf [("b", 2)] "b" = 2 := by decide
  have tr : totalOf [("a", 3)] = 3 := by decide
  have tt : totalOf [("b", 2)] = 2 := by decide
  show chi2stat [("a", 3)] [("b", 2)] ≠ _
  rw [chi2stat, hu]
  simp only [List.map_cons, List.map_nil, List.sum_cons, List.sum_nil,
    expectedCount, refProp]
  rw [ca, cb, ta, tb, tr, tt]
  norm_num [floorProp]

/-- C1 (amended): the categorical drift detector forms the union of
categories seen on either side, assigns a zero count on the side where a
category is absent (never skipping it), computes the chi-square statistic of
observed target counts against expected counts equal to reference proportions
scaled to the target sample size — a category with zero reference count
having its reference proportion replaced by the documented small positive
floor before scaling — uses degrees of freedom = number of union categories
− 1, and returns the p-value of the chi-square survival function at that
statistic. -/
theorem chiSquareDrift_correct (sf : ℚ → ℕ → ℚ)
    (refCounts tgtCounts : List (String × ℕ)) :
    (∀ c, c ∈ unionCats refCounts tgtCounts ↔
        c ∈ refCounts.map Prod.fst ∨ c ∈ tgtCounts.map Prod.fst)
    ∧ (∀ c ∈ unionCats refCounts tgtCounts,
        c ∉ tgtCounts.map Prod.fst → countOf tgtCounts c = 0)
    ∧ (∀ c ∈ unionCats refCounts tgtCounts,
        c ∉ refCounts.map Prod.fst → countOf refCounts c = 0)
    ∧ (chiSquareDrift sf refCounts tgtCounts).stat =
        ((unionCats refCounts tgtCounts).map (fun c =>
          ((countOf tgtCounts c : ℚ)
              - (if countOf refCounts c = 0 then floorProp
                  else (countOf refCounts c : ℚ) / (totalOf refCounts : ℚ))
                  * (totalOf tgtCounts : ℚ)) ^ 2
            / ((if countOf refCounts c = 0 then floorProp
                  else (countOf refCounts c : ℚ) / (totalOf refCounts : ℚ))
                  * (totalOf tgtCounts : ℚ)))).sum
    ∧ (chiSquareDrift sf refCounts tgtCounts).degFree =
        (unionCats refCounts tgtCounts).length - 1
    ∧ (chiSquareDrift sf refCounts tgtCounts).pValue =
        sf (chiSquareDrift sf refCounts tgtCounts).stat
          (chiSquareDrift sf refCounts tgtCounts).degFree := by
  refine ⟨?_, ?_, ?_, ?_, rfl, rfl⟩
  · intro c
    simp [unionCats, List.mem_dedup, List.mem_append]
  · intro c _ hc
    exact countOf_eq_zero_of_not_mem_keys hc
  · intro c _ hc
    exact countOf_eq_zero_of_not_mem_keys hc
  · show chi2stat refCounts tgtCounts = _
    unfold chi2stat expectedCount refProp
    rfl

theorem dedup_toFinset (l : List String) : l.dedup.toFinset = l.toFinset := by
  ext c
  simp [List.mem_toFinset, List.mem_dedup]

theorem sum_dedup_count (l : List String) :
    (l.dedup.map (fun c => l.count c)).sum = l.length := by
  rw [← List.sum_toFinset (fun c => l.count c) (List.nodup_dedup l), dedup_toFinset]
  exact List.sum_toFinset_count_eq_length l

/-- C4: every null/absent category value on either side maps to the single
reserved bucket `"UNKNOWN"` before counting; no record is dropped from the
counts (the counts sum to the number of records); and the counted category
set holds no second bucket for missing values — every counted category is
either the reserved bucket or a non-empty source string actually present in
the input. -/
theorem categoryCounts_missing_policy (vals : List (Option String)) :
    (((categoryCounts vals).map Prod.snd).sum = vals.length)
    ∧ (∀ v, (v = none ∨ v = some "") → normalizeSource v = "UNKNOWN")
    ∧ (∀ c ∈ (categoryCounts vals).map Prod.fst,
        c = "UNKNOWN" ∨ (some c ∈ vals ∧ c ≠ "")) := by
  refine ⟨?_, ?_, ?_⟩
  · rw [categoryCounts]
    rw [List.map_map]
    have h := sum_dedup_count (vals.map normalizeSource)
    rw [List.length_map] at h
    exact h
  · rintro v (rfl | rfl) <;> simp [normalizeSource]
  · intro c hc
    rw [categoryCounts, List.map_map] at hc
    have hmem : c ∈ vals.map normalizeSource := by
      have : c ∈ (vals.map normalizeSource).dedup := by
        simpa using hc
      exact List.mem_dedup.mp this
    rcases List.mem_map.mp hmem with ⟨v, hv, hnv⟩
    rcases v with _ | s
    · left
      simpa [normalizeSource] using hnv.symm
    · by_cases hs : s = ""
      · left
        simp [normalizeSource, hs] at hnv
        exact hnv.symm
      · right
        simp only [normalizeSource, if_neg hs] at hnv
        exact ⟨hnv ▸ hv, hnv ▸ hs⟩

/-- C5: when one of the two classes is entirely absent from the held-out
evaluation partition (in particular when the target day has zero records,
which makes the target held-out partition empty), the representation drift
detector reports an explicit `InsufficientDataError` and returns no
p-value. -/
theorem embeddingsDriftDay_insufficient
    (oracle : List (List ℚ) → List (List ℚ) → List (List ℚ) → List (List ℚ) → ℚ)
    (refVecs tgtVecs : List (List ℚ))
    (h : (split75 refVecs).2 = [] ∨ (split75 tgtVecs).2 = []) :
    embeddingsDriftDay oracle refVecs tgtVecs
        = Except.error MonitorError.insufficientData
    ∧ (∀ p, embeddingsDriftDay oracle refVecs tgtVecs ≠ Except.ok p)
    ∧ (tgtVecs = [] → (split75 tgtVecs).2 = []) := by
  have h1 : embeddingsDriftDay oracle refVecs tgtVecs
      = Except.error MonitorError.insufficientData := by
    unfold embeddingsDriftDay
    exact if_pos h
  refine ⟨h1, fun p hp => ?_, fun ht => by simp [split75, ht]⟩
  rw [h1] at hp
  exact Except.noConfusion hp

/-- Witness for `embeddingsDriftDay_insufficient`: a target day with zero
records against a four-vector reference. -/
theorem embeddingsDriftDay_insufficient_witness :
    ((split75 ([[1], [2], [3], [4]] : List (List ℚ))).2 = []
        ∨ (split75 ([] : List (List ℚ))).2 = [])
    ∧ embeddingsDriftDay (fun _ _ _ _ => 0) [[1], [2], [3], [4]] []
        = Except.error MonitorError.insufficientData :=
  ⟨Or.inr rfl,
    (embeddingsDriftDay_insufficient (fun _ _ _ _ => 0) [[1], [2], [3], [4]] []
      (Or.inr rfl)).1⟩

/-- C7: `recordsOnDate(d)` returns exactly the records whose timestamp's
calendar-date component equals `d` — membership depends only on the date
component, not the time of day — in original arrival order (the output is a
sublist of the store), and it returns the empty sequence when no record has
that date. -/
theorem recordsOnDate_correct (logsL : List InfRecord) (d : ℕ) :
    (∀ r, r ∈ recordsOnDate logsL d ↔ r ∈ logsL ∧ r.ts.day = d)
    ∧ (recordsOnDate logsL d).Sublist logsL
    ∧ (∀ r s, onDate d { r with ts := { r.ts with tod := s } } = onDate d r)
    ∧ ((∀ r ∈ logsL, r.ts.day ≠ d) → recordsOnDate logsL d = []) := by
  refine ⟨?_, List.filter_sublist logsL, fun r s => rfl, ?_⟩
  · intro r
    simp [recordsOnDate, List.mem_filter, onDate]
  · intro h
    rw [recordsOnDate, List.filter_eq_nil_iff]
    intro r hr
    simpa [onDate] using h r hr

/-- Witness for `recordsOnDate_correct`: a store whose single record is dated
20221003 yields the empty sequence for 20221004. -/
theorem recordsOnDate_correct_witness :
    (∀ r ∈ [(⟨1, ⟨20221003, 7⟩, "Business"⟩ : InfRecord)], r.ts.day ≠ 20221004)
    ∧ recordsOnDate [(⟨1, ⟨20221003, 7⟩, "Business"⟩ : InfRecord)] 20221004 = [] :=
  ⟨by decide,
    (recordsOnDate_correct [(⟨1, ⟨20221003, 7⟩, "Business"⟩ : InfRecord)]
      20221004).2.2.2 (by decide)⟩

theorem joinedTriples_cons (r : InfRecord) (t : List InfRecord)
    (annset : List AnnRecord) :
    joinedTriples (r :: t) annset =
      ((annotationFor annset r.id).map
        (fun lbl => (r.predLabel, lbl, r.ts.day))).toList ++ joinedTriples t annset := by
  rw [joinedTriples, List.filterMap_cons]
  rcases h : annotationFor annset r.id with _ | lbl <;> simp [h, joinedTriples]

theorem joinedTriples_filter_annotated (logsL : List InfRecord)
    (annset : List AnnRecord) :
    joinedTriples logsL annset =
      joinedTriples (logsL.filter (fun r => (annotationFor annset r.id).isSome))
        annset := by
  induction logsL with
  | nil => rfl
  | cons r t ih =>
    rcases hr : annotationFor annset r.id with _ | lbl
    · rw [joinedTriples_cons, hr, List.filter_cons, if_neg (by simp [hr]), ih]
      simp
    · rw [joinedTriples_cons, hr, List.filter_cons, if_pos (by simp [hr]),
        joinedTriples_cons, hr, ih]

theorem joinedTriples_length_countP (logsL : List InfRecord)
    (annset : List AnnRecord) :
    (joinedTriples logsL annset).length =
      logsL.countP (fun r => (annotationFor annset r.id).isSome) := by
  induction logsL with
  | nil => rfl
  | cons r t ih =>
    rcases hr : annotationFor annset r.id with _ | lbl
    · rw [joinedTriples_cons, hr, List.countP_cons]
      simp [hr, ih]
    · rw [joinedTriples_cons, hr, List.countP_cons]
      simp [hr, ih]

/-- C6: daily accuracy is computed only over joined triples.  Unannotated log
records never enter the computation (filtering the store down to annotated
records leaves the join unchanged, and the join has exactly one triple per
annotated record), and for a date with joined triples the accuracy is the
number of triples with predicted label equal to true label divided by the
number of joined triples that day. -/
theorem dailyAccuracy_joined_only (logsL : List InfRecord)
    (annset : List AnnRecord) (d : ℕ)
    (h : dayTriples logsL annset d ≠ []) :
    joinedTriples logsL annset =
      joinedTriples (logsL.filter (fun r => (annotationFor annset r.id).isSome)) annset
    ∧ (joinedTriples logsL annset).length =
        logsL.countP (fun r => (annotationFor annset r.id).isSome)
    ∧ dailyAccuracy logsL annset d =
        some (((dayTriples logsL annset d).countP (fun t => t.1 == t.2.1) : ℚ)
          / ((dayTriples logsL annset d).length : ℚ)) := by
  refine ⟨joinedTriples_filter_annotated logsL annset,
    joinedTriples_length_countP logsL annset, ?_⟩
  rw [dailyAccuracy, if_neg h, accuracy]
  rw [List.countP_map, List.length_map]
  rfl

/-- Witness for `dailyAccuracy_joined_only`: three log records on one date, of
which two have matching ground truth (one correct), one unmatched. -/
theorem dailyAccuracy_joined_only_witness :
    dayTriples
        [(⟨1, ⟨20221002, 0⟩, "Sports"⟩ : InfRecord),
         (⟨2, ⟨20221002, 1⟩, "Health"⟩ : InfRecord),
         (⟨3, ⟨20221002, 2⟩, "Toons"⟩ : InfRecord)]
        [(⟨1, "Sports"⟩ : AnnRecord), (⟨2, "Sports"⟩ : AnnRecord)] 20221002 ≠ []
    ∧ dailyAccuracy
        [(⟨1, ⟨20221002, 0⟩, "Sports"⟩ : InfRecord),
         (⟨2, ⟨20221002, 1⟩, "Health"⟩ : InfRecord),
         (⟨3, ⟨20221002, 2⟩, "Toons"⟩ : InfRecord)]
        [(⟨1, "Sports"⟩ : AnnRecord), (⟨2, "Sports"⟩ : AnnRecord)] 20221002 =
      some (((dayTriples
        [(⟨1, ⟨20221002, 0⟩, "Sports"⟩ : InfRecord),
         (⟨2, ⟨20221002, 1⟩, "Health"⟩ : InfRecord),
         (⟨3, ⟨20221002, 2⟩, "Toons"⟩ : InfRecord)]
        [(⟨1, "Sports"⟩ : AnnRecord), (⟨2, "Sports"⟩ : AnnRecord)]
        20221002).countP (fun t => t.1 == t.2.1) : ℚ)
          / ((dayTriples
        [(⟨1, ⟨20221002, 0⟩, "Sports"⟩ : InfRecord),
         (⟨2, ⟨20221002, 1⟩, "Health"⟩ : InfRecord),
         (⟨3, ⟨20221002, 2⟩, "Toons"⟩ : InfRecord)]
        [(⟨1, "Sports"⟩ : AnnRecord), (⟨2, "Sports"⟩ : AnnRecord)]
        20221002).length : ℚ)) :=
  ⟨by decide,
    (dailyAccuracy_joined_only
      [(⟨1, ⟨20221002, 0⟩, "Sports"⟩ : InfRecord),
       (⟨2, ⟨20221002, 1⟩, "Health"⟩ : InfRecord),
       (⟨3, ⟨20221002, 2⟩, "Toons"⟩ : InfRecord)]
      [(⟨1, "Sports"⟩ : AnnRecord), (⟨2, "Sports"⟩ : AnnRecord)] 20221002
      (by decide)).2.2⟩

/-- C8: each drift loop emits exactly one result per (date, feature) pair —
the emitted dates are exactly `LOG_DATE_START` through `LOG_DATE_END` in
ascending order, each date occurring once — and each day's result is an
independent pure function of the reference data and that day's target slice:
two log stores agreeing on a day's slice give that day the same result, and
the result emitted for a date is determined by the day slice of that date
alone. -/
theorem driftSeries_per_day {α β : Type} (f : α → List InfRecord → β)
    (refData : α) (logs1 logs2 : List InfRecord) :
    (driftSeries f refData logs1).map Prod.fst = monitorDates
    ∧ List.Sorted (· < ·) monitorDates
    ∧ (∀ d, d ∈ monitorDates ↔ logDateStart ≤ d ∧ d ≤ logDateEnd)
    ∧ (∀ d, logDateStart ≤ d → d ≤ logDateEnd →
        ((driftSeries f refData logs1).map Prod.fst).count d = 1)
    ∧ (∀ d, recordsOnDate logs1 d = recordsOnDate logs2 d →
        dayResult f refData logs1 d = dayResult f refData logs2 d)
    ∧ (∀ d, d ∈ monitorDates →
        (d, f refData (recordsOnDate logs1 d)) ∈ driftSeries f refData logs1) := by
  have hfst : (driftSeries f refData logs1).map Prod.fst = monitorDates := by
    rw [driftSeries, List.map_map]
    exact List.map_id monitorDates
  have hsorted : List.Sorted (· < ·) monitorDates := by decide
  have hmem : ∀ d, d ∈ monitorDates ↔ logDateStart ≤ d ∧ d ≤ logDateEnd := by
    intro d
    simp only [monitorDates, List.mem_map, List.mem_range, logDateStart, logDateEnd]
    constructor
    · rintro ⟨a, ha, rfl⟩
      omega
    · rintro ⟨h1, h2⟩
      exact ⟨d - 20221001, by omega, by omega⟩
  refine ⟨hfst, hsorted, hmem, ?_, ?_, ?_⟩
  · intro d h1 h2
    rw [hfst]
    exact List.count_eq_one_of_mem hsorted.nodup ((hmem d).mpr ⟨h1, h2⟩)
  · intro d h
    rw [dayResult, dayResult, h]
  · intro d hd
    exact List.mem_map_of_mem _ hd

/-- Witness for `driftSeries_per_day`: the loop over an empty log store emits
exactly one entry for 2022-10-01, the first monitored date. -/
theorem driftSeries_per_day_witness :
    (logDateStart ≤ 20221001 ∧ 20221001 ≤ logDateEnd)
    ∧ ((driftSeries (fun (_ : Unit) (l : List InfRecord) => l.length) () []).map
        Prod.fst).count 20221001 = 1 :=
  ⟨⟨by decide, by decide⟩,
    (driftSeries_per_day (fun (_ : Unit) (l : List InfRecord) => l.length) () [] []
      ).2.2.2.1 20221001 (by decide) (by decide)⟩

end QconsfMlops
